import Mathlib

/-!
Shallow embedding of the `growable` crate (src/lib.rs): a growable, reusable
memory block (`Growable`), a typed handle (`Reusable`), and a pool of idle
blocks (`GrowablePool`).

Modelling conventions:
* The system allocator is modelled as a deterministic oracle with infinite
  memory: `AllocState` carries a fresh-address counter and a trace of the
  calls made to the allocator, plus `dropValue` markers for each run of the
  contained value's destructor (`ptr::drop_in_place`).  `Global.grow` is
  modelled as succeeding in place (returning the same address); the crate's
  observable bookkeeping (`len`, `ptr_alignment`, which allocator entry
  points are invoked) does not depend on whether the allocator moves a block.
* Rust panics (the `expect` in `with_capacity`, the `assert!` on the
  alignment, and the `assert_ne!` in `grow`) are modelled by returning
  `none`.  Allocator exhaustion (`handle_alloc_error`) aborts the process
  and is modelled as never happening (the oracle always succeeds).
* Machine integers (`usize`) are modelled as `Nat`; `Layout::from_size_align`
  rejects a size that overflows `isize::MAX` once rounded up to the
  alignment, which is kept explicitly via `isizeMax`.
* A type `T` is represented by its layout `Shape` (`size_of`/`align_of`)
  together with a Lean value of a type parameter `α` standing for the value
  stored in the block; writing (`ptr::write`) and reading (`NonNull::as_ref`)
  the block are modelled by storing the value inside `Reusable`.
-/

/-- Events observable at the allocator boundary, plus destructor runs:
`alloc` models `Global.allocate`, `dealloc` models `Global.deallocate`,
`growCall` models `Global.grow`, and `dropValue` marks one execution of the
contained value's destructor via `ptr::drop_in_place`. -/
inductive AllocEvent where
  | alloc (size align : Nat)
  | dealloc (p size align : Nat)
  | growCall (p oldSize oldAlign newSize newAlign : Nat)
  | dropValue
deriving DecidableEq, Repr

/-- State of the allocator oracle: the next fresh address and the trace of
events so far. -/
structure AllocState where
  next : Nat
  events : List AllocEvent
deriving DecidableEq, Repr

/-- Rust's `isize::MAX` on a 64-bit target, the bound used by
`Layout::from_size_align`. -/
def isizeMax : Nat := 2 ^ 63 - 1

/-- Rust's `usize::is_power_of_two`: true iff exactly one bit is set. -/
def isPow2 (n : Nat) : Bool := n != 0 && (n &&& (n - 1)) == 0

/-- Validity check of `Layout::from_size_align(size, align)`: the alignment
is a power of two and the size, rounded up to the alignment, does not
overflow `isize::MAX`. -/
def layoutValid (size align : Nat) : Bool :=
  isPow2 align && decide (size ≤ isizeMax - (align - 1))

/-- One call to `Global.allocate`: returns a fresh address and records the
call. -/
def allocRaw (size align : Nat) (s : AllocState) : Nat × AllocState :=
  (s.next, ⟨s.next + 1, s.events ++ [AllocEvent.alloc size align]⟩)

/-- One call to `Global.deallocate`: records the call. -/
def deallocRaw (p size align : Nat) (s : AllocState) : AllocState :=
  ⟨s.next, s.events ++ [AllocEvent.dealloc p size align]⟩

/-- One call to `Global.grow`: modelled as succeeding in place, recording the
call. -/
def growRaw (p oldSize oldAlign newSize newAlign : Nat) (s : AllocState) :
    Nat × AllocState :=
  (p, ⟨s.next, s.events ++ [AllocEvent.growCall p oldSize oldAlign newSize newAlign]⟩)

/-- One run of the contained value's destructor (`ptr::drop_in_place`). -/
def emitDrop (s : AllocState) : AllocState :=
  ⟨s.next, s.events ++ [AllocEvent.dropValue]⟩

/-- The struct `Growable`: a chunk of heap memory of `len` bytes aligned to
`ptr_alignment`, at address `ptr`.  `ptr` is the model's block identity; a
zero-length block holds the non-dereferenceable sentinel `danglingPtr`. -/
structure Growable where
  len : Nat
  ptr_alignment : Nat
  ptr : Nat
deriving DecidableEq, Repr

/-- Address used for `NonNull::dangling()`; real allocations receive fresh
addresses starting from the oracle's counter, kept distinct by starting the
counter at 1 in concrete runs. -/
def danglingPtr : Nat := 0

/-- Method `Growable::with_capacity(len, ptr_alignment)`.  A nonzero length
allocates via a checked `Layout::from_size_align` (`none` models the panic of
the `expect` on an invalid layout); a zero length allocates nothing but still
asserts that the alignment is a power of two. -/
def Growable.with_capacity (len ptr_alignment : Nat) (s : AllocState) :
    Option (Growable × AllocState) :=
  if len ≠ 0 then
    if layoutValid len ptr_alignment then
      let pa := allocRaw len ptr_alignment s
      some (⟨len, ptr_alignment, pa.1⟩, pa.2)
    else
      none
  else
    if isPow2 ptr_alignment then
      some (⟨0, ptr_alignment, danglingPtr⟩, s)
    else
      none

/-- Method `Growable::new()`: `with_capacity(0, 1)`. -/
def Growable.mkNew (s : AllocState) : Option (Growable × AllocState) :=
  Growable.with_capacity 0 1 s

/-- Method `Growable::len()`. -/
def Growable.length (g : Growable) : Nat := g.len

/-- Method `Growable::alignment()`. -/
def Growable.alignment (g : Growable) : Nat := g.ptr_alignment

/-- The `Drop` impl for `Growable`: deallocate when `len != 0`. -/
def Growable.drop (g : Growable) (s : AllocState) : AllocState :=
  if g.len ≠ 0 then deallocRaw g.ptr g.len g.ptr_alignment s else s

/-- The `Clone` impl for `Growable`: a fresh block of the same capacity and
alignment (contents are never copied). -/
def Growable.clone (g : Growable) (s : AllocState) : Option (Growable × AllocState) :=
  Growable.with_capacity g.len g.ptr_alignment s

/-- Method `Growable::grow(len, ptr_alignment)`.  Zero current length defers
to `with_capacity`; a sufficient block is a no-op; otherwise the new length is
`max` of current and requested, growing in place when the requested alignment
equals the current one and deallocating/reallocating otherwise.  The inner
`none` models the `assert_ne!(len, 0)` (provably unreachable). -/
def Growable.grow (g : Growable) (len ptr_alignment : Nat) (s : AllocState) :
    Option (Growable × AllocState) :=
  if g.len = 0 then
    Growable.with_capacity len ptr_alignment s
  else if len ≤ g.len ∧ ptr_alignment ≤ g.ptr_alignment then
    some (g, s)
  else
    let len' := max g.len len
    if len' = 0 then
      none
    else if ptr_alignment = g.ptr_alignment then
      let pa := growRaw g.ptr g.len g.ptr_alignment len' ptr_alignment s
      some (⟨len', ptr_alignment, pa.1⟩, pa.2)
    else
      let s' := deallocRaw g.ptr g.len g.ptr_alignment s
      let pa := allocRaw len' ptr_alignment s'
      some (⟨len', ptr_alignment, pa.1⟩, pa.2)

/-- Layout of a Rust type `T`: `mem::size_of::<T>()` and
`mem::align_of::<T>()`. -/
structure Shape where
  size : Nat
  align : Nat
deriving DecidableEq, Repr

/-- Every real Rust type has a layout accepted by `Layout::from_size_align`:
the alignment is a power of two and the size fits. -/
def Shape.rustValid (sh : Shape) : Bool := layoutValid sh.size sh.align

/-- The struct `Reusable<T>`: the block's recorded `len`, `ptr_alignment` and
address, plus the live value written at that address. -/
structure Reusable (α : Type) where
  len : Nat
  ptr_alignment : Nat
  ptr : Nat
  value : α
deriving DecidableEq, Repr

/-- Method `Growable::copy(t)`: writes `t` at the block's address and wraps
the block's fields into a `Reusable`; `mem::forget(self)` suppresses the
block's destructor, so no event is recorded. -/
def Growable.copy {α : Type} (g : Growable) (t : α) : Reusable α :=
  ⟨g.len, g.ptr_alignment, g.ptr, t⟩

/-- Method `Growable::consume(t)` for a value `t` whose type has layout `sh`:
grow to `size_of`/`align_of` and then `copy`. -/
def Growable.consume {α : Type} (g : Growable) (sh : Shape) (t : α) (s : AllocState) :
    Option (Reusable α × AllocState) :=
  match g.grow sh.size sh.align s with
  | none => none
  | some gs => some (gs.1.copy t, gs.2)

/-- The `Deref` impl for `Reusable<T>`: read the value stored at the
address. -/
def Reusable.deref {α : Type} (r : Reusable α) : α := r.value

/-- Method `Reusable::free_in_place`: run the value's destructor and rebuild
a `Growable` from the recorded fields. -/
def Reusable.free_in_place {α : Type} (r : Reusable α) (s : AllocState) :
    Growable × AllocState :=
  (⟨r.len, r.ptr_alignment, r.ptr⟩, emitDrop s)

/-- Method `Reusable::free`: `free_in_place` followed by `mem::forget(this)`,
so the handle's own drop glue is suppressed and the recovered block is
returned. -/
def Reusable.free {α : Type} (r : Reusable α) (s : AllocState) :
    Growable × AllocState :=
  r.free_in_place s

/-- The `Drop` impl for `Reusable<T>` as executed on an implicit drop: the
`Growable` returned by `free_in_place` is a temporary that is immediately
dropped, releasing the allocation. -/
def Reusable.dropGlue {α : Type} (r : Reusable α) (s : AllocState) : AllocState :=
  let gs := r.free_in_place s
  gs.1.drop gs.2

/-- Method `Reusable::free_move`: read the value out without running its
destructor and rebuild a `Growable` from the recorded fields;
`mem::forget(this)` suppresses the handle's drop glue. -/
def Reusable.free_move {α : Type} (r : Reusable α) (s : AllocState) :
    α × Growable × AllocState :=
  (r.value, ⟨r.len, r.ptr_alignment, r.ptr⟩, s)

/-- Function `replace`: `Reusable::free(this).consume(u)`. -/
def replaceReusable {α β : Type} (r : Reusable α) (sh : Shape) (u : β) (s : AllocState) :
    Option (Reusable β × AllocState) :=
  let gs := Reusable.free r s
  gs.1.consume sh u gs.2

/-- The struct `GrowablePoolBuilder` with its four options. -/
structure GrowablePoolBuilder where
  len : Nat
  per_growable_len : Nat
  per_growable_ptr_alignment : Nat
  overgrow : Bool
deriving DecidableEq, Repr

/-- Method `GrowablePoolBuilder::new()`: the default options. -/
def GrowablePoolBuilder.mkNew : GrowablePoolBuilder := ⟨0, 8, 8, true⟩

/-- Method `GrowablePoolBuilder::enable_overgrow`. -/
def GrowablePoolBuilder.enable_overgrow (b : GrowablePoolBuilder) (e : Bool) :
    GrowablePoolBuilder :=
  { b with overgrow := e }

/-- Method `GrowablePoolBuilder::with_default_capacity`. -/
def GrowablePoolBuilder.with_default_capacity (b : GrowablePoolBuilder) (l : Nat) :
    GrowablePoolBuilder :=
  { b with per_growable_len := l }

/-- Method `GrowablePoolBuilder::with_default_ptr_alignment`. -/
def GrowablePoolBuilder.with_default_ptr_alignment (b : GrowablePoolBuilder) (a : Nat) :
    GrowablePoolBuilder :=
  { b with per_growable_ptr_alignment := a }

/-- Method `GrowablePoolBuilder::with_capacity`. -/
def GrowablePoolBuilder.with_capacity (b : GrowablePoolBuilder) (c : Nat) :
    GrowablePoolBuilder :=
  { b with len := c }

/-- The struct `GrowablePool`; `vec` models the `VecDeque<Growable>` with the
list's head as the deque's front. -/
structure GrowablePool where
  len : Nat
  per_growable_len : Nat
  per_growable_ptr_alignment : Nat
  overgrow : Bool
  vec : List Growable
deriving DecidableEq, Repr

/-- Rust's `VecDeque::resize(n, default)` on an empty deque: extend with
`repeat_n(default, n)`, which yields `n - 1` clones followed by the original
value; with `n = 0` the original is dropped without being stored. -/
def poolFill : Nat → Growable → AllocState → Option (List Growable × AllocState)
  | 0, g, s => some ([], g.drop s)
  | 1, g, s => some ([g], s)
  | n + 2, g, s =>
    match g.clone s with
    | none => none
    | some cs =>
      match poolFill (n + 1) g cs.2 with
      | none => none
      | some vs => some (cs.1 :: vs.1, vs.2)

/-- Method `GrowablePoolBuilder::build()`: manufacture one default block and
resize the (empty) deque to `len` copies of it. -/
def GrowablePoolBuilder.build (b : GrowablePoolBuilder) (s : AllocState) :
    Option (GrowablePool × AllocState) :=
  match Growable.with_capacity b.per_growable_len b.per_growable_ptr_alignment s with
  | none => none
  | some ds =>
    match poolFill b.len ds.1 ds.2 with
    | none => none
    | some vs =>
      some (⟨b.len, b.per_growable_len, b.per_growable_ptr_alignment, b.overgrow, vs.1⟩, vs.2)

/-- Method `GrowablePool::new()`: build from the default builder. -/
def GrowablePool.mkNew (s : AllocState) : Option (GrowablePool × AllocState) :=
  GrowablePoolBuilder.mkNew.build s

/-- Method `GrowablePool::len()`: the current idle-block count (`vec.len()`;
the Rust field `len` is the configured capacity target, kept under the same
name in the structure). -/
def GrowablePool.idle (p : GrowablePool) : Nat := p.vec.length

/-- Method `GrowablePool::is_empty()`. -/
def GrowablePool.isEmptyPool (p : GrowablePool) : Bool := p.idle == 0

/-- Method `GrowablePool::allocate(t)`: pop the front idle block and consume
`t` into it; when the deque is empty, manufacture a default block, resize the
deque to `max(len, 1)` copies, and retry (the retry is inlined: the resized
deque is provably nonempty, and the dead `[]` arm models the impossible
recursion). -/
def GrowablePool.allocate {α : Type} (p : GrowablePool) (sh : Shape) (t : α)
    (s : AllocState) : Option (Reusable α × GrowablePool × AllocState) :=
  match p.vec with
  | g :: rest =>
    match g.consume sh t s with
    | none => none
    | some rs => some (rs.1, { p with vec := rest }, rs.2)
  | [] =>
    match Growable.with_capacity p.per_growable_len p.per_growable_ptr_alignment s with
    | none => none
    | some ds =>
      match poolFill (max p.len 1) ds.1 ds.2 with
      | none => none
      | some vs =>
        match vs.1 with
        | [] => none
        | g :: rest =>
          match g.consume sh t vs.2 with
          | none => none
          | some rs => some (rs.1, { p with vec := rest }, rs.2)

/-- Method `GrowablePool::free(t)`: with overgrow disabled and the idle count
already at or above the target, discard the handle (its drop glue runs);
otherwise `Reusable::free` it and push the recovered block at the front. -/
def GrowablePool.free {α : Type} (p : GrowablePool) (r : Reusable α) (s : AllocState) :
    GrowablePool × AllocState :=
  if p.overgrow = false ∧ p.len ≤ p.vec.length then
    (p, r.dropGlue s)
  else
    let gs := Reusable.free r s
    ({ p with vec := gs.1 :: p.vec }, gs.2)

/-- Specification of a successful `with_capacity`: the returned block records
exactly the requested length and alignment. -/
theorem Growable.with_capacity_some {l a : Nat} {s : AllocState} {g : Growable}
    {s' : AllocState} (h : Growable.with_capacity l a s = some (g, s')) :
    g.len = l ∧ g.ptr_alignment = a := by
  simp only [Growable.with_capacity] at h
  split at h
  · split at h
    · simp only [Option.some.injEq, Prod.mk.injEq] at h
      obtain ⟨hg, -⟩ := h
      subst hg
      exact ⟨rfl, rfl⟩
    · exact Option.noConfusion h
  · split at h
    · simp only [Option.some.injEq, Prod.mk.injEq] at h
      obtain ⟨hg, -⟩ := h
      subst hg
      rename_i hl _
      simp only [ne_eq, Decidable.not_not] at hl
      exact ⟨hl.symm, rfl⟩
    · exact Option.noConfusion h

/-- Postcondition of `grow`: on success the block's length never shrinks and
is at least the requested length, and the alignment is at least the requested
alignment. -/
theorem Growable.grow_post {g : Growable} {l a : Nat} {s : AllocState} {g' : Growable}
    {s' : AllocState} (h : g.grow l a s = some (g', s')) :
    g.len ≤ g'.len ∧ l ≤ g'.len ∧ a ≤ g'.ptr_alignment := by
  simp only [Growable.grow] at h
  split at h
  · rename_i h0
    obtain ⟨hl, ha⟩ := Growable.with_capacity_some h
    omega
  · split at h
    · rename_i h0 h1
      simp only [Option.some.injEq, Prod.mk.injEq] at h
      obtain ⟨hg, -⟩ := h
      subst hg
      exact ⟨Nat.le_refl _, h1.1, h1.2⟩
    · split at h
      · exact Option.noConfusion h
      · split at h
        · simp only [Option.some.injEq, Prod.mk.injEq] at h
          obtain ⟨hg, -⟩ := h
          subst hg
          exact ⟨Nat.le_max_left _ _, Nat.le_max_right _ _, Nat.le_refl _⟩
        · simp only [Option.some.injEq, Prod.mk.injEq] at h
          obtain ⟨hg, -⟩ := h
          subst hg
          exact ⟨Nat.le_max_left _ _, Nat.le_max_right _ _, Nat.le_refl _⟩

/-- Specification of `poolFill`: on success it stores exactly the requested
number of blocks, each with the default block's length and alignment. -/
theorem poolFill_some {n : Nat} {d : Growable} {s : AllocState} {vec : List Growable}
    {s' : AllocState} (h : poolFill n d s = some (vec, s')) :
    vec.length = n ∧ ∀ g ∈ vec, g.len = d.len ∧ g.ptr_alignment = d.ptr_alignment := by
  induction n generalizing s vec s' with
  | zero =>
    simp only [poolFill, Option.some.injEq, Prod.mk.injEq] at h
    obtain ⟨rfl, -⟩ := h
    simp
  | succ n ih =>
    match n, h with
    | 0, h =>
      simp only [poolFill, Option.some.injEq, Prod.mk.injEq] at h
      obtain ⟨rfl, -⟩ := h
      simp
    | m + 1, h =>
      simp only [poolFill] at h
      split at h
      · exact Option.noConfusion h
      · rename_i cs hclone
        split at h
        · exact Option.noConfusion h
        · rename_i vs hrec
          simp only [Option.some.injEq, Prod.mk.injEq] at h
          obtain ⟨rfl, -⟩ := h
          obtain ⟨hlen, hall⟩ := ih hrec
          obtain ⟨hcl, hca⟩ := Growable.with_capacity_some hclone
          refine ⟨by simp [hlen], ?_⟩
          intro g hg
          rcases List.mem_cons.mp hg with hg | hg
          · subst hg
            exact ⟨hcl, hca⟩
          · exact hall g hg

/-- C9: for every length (including 0) and every alignment that is not a
power of two, `Growable::with_capacity` aborts with a contract violation
(modelled as `none`) rather than returning a block; the power-of-two
precondition is checked even on the zero-length path where no allocation
occurs. -/
theorem with_capacity_rejects_invalid_alignment (l a : Nat) (s : AllocState)
    (h : isPow2 a = false) : Growable.with_capacity l a s = none := by
  simp [Growable.with_capacity, layoutValid, h]

/-- Witness for the alignment rejection at concrete inputs: alignment 3 is
rejected both with length 0 and with length 5. -/
theorem with_capacity_rejects_invalid_alignment_witness :
    Growable.with_capacity 0 3 ⟨1, []⟩ = none ∧
    Growable.with_capacity 5 3 ⟨1, []⟩ = none :=
  ⟨with_capacity_rejects_invalid_alignment 0 3 ⟨1, []⟩ (by decide),
   with_capacity_rejects_invalid_alignment 5 3 ⟨1, []⟩ (by decide)⟩

/-- C4: round-trip of a value — `Growable::new` is the empty block, consuming
any value of any validly laid-out type into it succeeds, and dereferencing
the resulting handle yields the value back. -/
theorem consume_roundtrip_deref (α : Type) (t : α) (sh : Shape) (s : AllocState)
    (h : sh.rustValid = true) :
    Growable.mkNew s = some (⟨0, 1, danglingPtr⟩, s) ∧
    ∃ r s', (⟨0, 1, danglingPtr⟩ : Growable).consume sh t s = some (r, s') ∧
      r.deref = t := by
  have hval : layoutValid sh.size sh.align = true := h
  have hpow : isPow2 sh.align = true := by
    simp only [layoutValid, Bool.and_eq_true] at hval
    exact hval.1
  refine ⟨rfl, ?_⟩
  rcases Nat.eq_zero_or_pos sh.size with h0 | h0
  · have hg : Growable.grow ⟨0, 1, danglingPtr⟩ sh.size sh.align s =
        some (⟨0, sh.align, danglingPtr⟩, s) := by
      simp [Growable.grow, Growable.with_capacity, h0, hpow]
    exact ⟨Growable.copy ⟨0, sh.align, danglingPtr⟩ t, s,
      by simp [Growable.consume, hg], rfl⟩
  · have hne : sh.size ≠ 0 := Nat.pos_iff_ne_zero.mp h0
    have hg : Growable.grow ⟨0, 1, danglingPtr⟩ sh.size sh.align s =
        some (⟨sh.size, sh.align, s.next⟩,
          ⟨s.next + 1, s.events ++ [AllocEvent.alloc sh.size sh.align]⟩) := by
      simp [Growable.grow, Growable.with_capacity, hne, hval, allocRaw]
    exact ⟨Growable.copy ⟨sh.size, sh.align, s.next⟩ t,
      ⟨s.next + 1, s.events ++ [AllocEvent.alloc sh.size sh.align]⟩,
      by simp [Growable.consume, hg], rfl⟩

/-- Witness for the round-trip at a concrete input: consuming the value 42
with the layout of a `u64` into the empty block and dereferencing gives 42
back. -/
theorem consume_roundtrip_deref_witness :
    Growable.mkNew ⟨1, []⟩ = some (⟨0, 1, danglingPtr⟩, ⟨1, []⟩) ∧
    ∃ r s', (⟨0, 1, danglingPtr⟩ : Growable).consume ⟨8, 8⟩ (42 : Nat) ⟨1, []⟩ =
      some (r, s') ∧ r.deref = 42 :=
  consume_roundtrip_deref Nat 42 ⟨8, 8⟩ ⟨1, []⟩ (by decide)

/-- C7: handle sufficiency — every `Reusable` produced by `consume` records a
length of at least `size_of` and an alignment of at least `align_of` of the
consumed type; the recorded fields are never mutated afterwards, so this
holds for the handle's whole lifetime. -/
theorem consume_block_sufficient (α : Type) (g : Growable) (sh : Shape) (t : α)
    (s : AllocState) (r : Reusable α) (s' : AllocState)
    (h : g.consume sh t s = some (r, s')) :
    sh.size ≤ r.len ∧ sh.align ≤ r.ptr_alignment := by
  simp only [Growable.consume] at h
  split at h
  · exact Option.noConfusion h
  · rename_i gs hgrow
    simp only [Option.some.injEq, Prod.mk.injEq] at h
    obtain ⟨hr, -⟩ := h
    obtain ⟨-, h2, h3⟩ := Growable.grow_post hgrow
    subst hr
    exact ⟨h2, h3⟩

/-- Witness for handle sufficiency at a concrete input: a 128-byte block
consuming an 8-byte, 8-aligned value yields a handle recording 128 and 8. -/
theorem consume_block_sufficient_witness :
    (⟨8, 8⟩ : Shape).size ≤ (⟨128, 8, 7, (0 : Nat)⟩ : Reusable Nat).len ∧
    (⟨8, 8⟩ : Shape).align ≤ (⟨128, 8, 7, (0 : Nat)⟩ : Reusable Nat).ptr_alignment :=
  consume_block_sufficient Nat ⟨128, 8, 7⟩ ⟨8, 8⟩ 0 ⟨1, []⟩ ⟨128, 8, 7, 0⟩ ⟨1, []⟩
    (by decide)

/-- C10: freeing hands back the recorded capacity — `Reusable::free` and
`Reusable::free_move` return a `Growable` carrying exactly the `len` and
`ptr_alignment` recorded in the handle; those fields come from the grown
block at consumption time, so they are never below the consumed block's
capacity, and when the block was already sufficient they are exactly its
original capacity (not shrunk to the stored type's size). -/
theorem free_hands_back_recorded_capacity (α : Type) (r : Reusable α) (s : AllocState) :
    (Reusable.free r s).1 = (⟨r.len, r.ptr_alignment, r.ptr⟩ : Growable) ∧
    (r.free_move s).2.1 = (⟨r.len, r.ptr_alignment, r.ptr⟩ : Growable) ∧
    ∀ (g : Growable) (sh : Shape) (t : α) (s₀ : AllocState) (r₀ : Reusable α)
      (s₁ : AllocState), g.consume sh t s₀ = some (r₀, s₁) →
      g.len ≤ r₀.len ∧
      (g.len ≠ 0 → sh.size ≤ g.len → sh.align ≤ g.ptr_alignment →
        r₀.len = g.len ∧ r₀.ptr_alignment = g.ptr_alignment ∧
        (Reusable.free r₀ s₁).1 = (⟨g.len, g.ptr_alignment, g.ptr⟩ : Growable)) := by
  refine ⟨rfl, rfl, ?_⟩
  intro g sh t s₀ r₀ s₁ h
  constructor
  · simp only [Growable.consume] at h
    split at h
    · exact Option.noConfusion h
    · rename_i gs hgrow
      simp only [Option.some.injEq, Prod.mk.injEq] at h
      obtain ⟨hr, -⟩ := h
      obtain ⟨h1, -, -⟩ := Growable.grow_post hgrow
      subst hr
      exact h1
  · intro hne hsz hal
    have hg : g.grow sh.size sh.align s₀ = some (g, s₀) := by
      simp [Growable.grow, hne, hsz, hal]
    simp only [Growable.consume, hg, Option.some.injEq, Prod.mk.injEq] at h
    obtain ⟨hr, -⟩ := h
    subst hr
    exact ⟨rfl, rfl, rfl⟩

/-- Witness for the hand-back of capacity at a concrete input: a handle made
by consuming an 8-byte value into a 128-byte block frees back to the full
128-byte block. -/
theorem free_hands_back_recorded_capacity_witness :
    (Reusable.free (⟨128, 8, 7, (0 : Nat)⟩ : Reusable Nat) ⟨1, []⟩).1 =
      (⟨128, 8, 7⟩ : Growable) ∧
    (Reusable.free (⟨128, 8, 7, (0 : Nat)⟩ : Reusable Nat)
        ⟨1, [AllocEvent.dropValue]⟩).1 = (⟨128, 8, 7⟩ : Growable) :=
  ⟨(free_hands_back_recorded_capacity Nat ⟨128, 8, 7, 0⟩ ⟨1, []⟩).1,
   ((free_hands_back_recorded_capacity Nat ⟨128, 8, 7, 0⟩ ⟨1, []⟩).2.2
      ⟨128, 8, 7⟩ ⟨8, 8⟩ 0 ⟨1, [AllocEvent.dropValue]⟩ ⟨128, 8, 7, 0⟩
      ⟨1, [AllocEvent.dropValue]⟩ (by decide) |>.2 (by decide) (by decide)
      (by decide)).2.2⟩

/-- Test for an event marking a destructor run. -/
def isDropValue : AllocEvent → Bool
  | AllocEvent.dropValue => true
  | _ => false

/-- Number of destructor runs recorded in the trace. -/
def dropCount (s : AllocState) : Nat := s.events.countP isDropValue

/-- C6: exactly-once destruction — every code path that retires a handle runs
the contained value's destructor exactly once: the implicit drop glue, the
explicit `Reusable::free`, and `GrowablePool::free` (both the storing path
and the overgrow-disabled discard path) each add exactly one destructor run;
`Reusable::free_move` adds none and returns the value alive, and the caller's
eventual drop of that value adds exactly one. -/
theorem value_destroyed_exactly_once (α : Type) (r : Reusable α) (s : AllocState)
    (p : GrowablePool) :
    dropCount (r.dropGlue s) = dropCount s + 1 ∧
    dropCount (Reusable.free r s).2 = dropCount s + 1 ∧
    (r.free_move s).1 = r.value ∧
    dropCount (r.free_move s).2.2 = dropCount s ∧
    dropCount (emitDrop (r.free_move s).2.2) = dropCount s + 1 ∧
    dropCount (p.free r s).2 = dropCount s + 1 := by
  have hemit : ∀ s₀ : AllocState, dropCount (emitDrop s₀) = dropCount s₀ + 1 := by
    intro s₀
    simp [dropCount, emitDrop, List.countP_append, isDropValue, List.countP_cons]
  have hdeall : ∀ q l a (s₀ : AllocState), dropCount (deallocRaw q l a s₀) = dropCount s₀ := by
    intro q l a s₀
    simp [dropCount, deallocRaw, List.countP_append, isDropValue, List.countP_cons]
  have hglue : ∀ s₀ : AllocState, dropCount (r.dropGlue s₀) = dropCount s₀ + 1 := by
    intro s₀
    simp only [Reusable.dropGlue, Reusable.free_in_place, Growable.drop]
    split
    · rw [hdeall, hemit]
    · exact hemit s₀
  refine ⟨hglue s, hemit s, rfl, rfl, hemit s, ?_⟩
  simp only [GrowablePool.free]
  split
  · exact hglue s
  · exact hemit s

/-- Sequential application of `grow` for a list of requests, as performed by
a succession of `consume` calls feeding each type's size and alignment. -/
def growSeq (g : Growable) (reqs : List (Nat × Nat)) (s : AllocState) :
    Option (Growable × AllocState) :=
  match reqs with
  | [] => some (g, s)
  | la :: rest =>
    match g.grow la.1 la.2 s with
    | none => none
    | some gs => growSeq gs.1 rest gs.2

/-- Counterexample to C1 as stated: growing an empty block for a `u64`-shaped
request (8, 8) and then for a `[u32; 4]`-shaped request (16, 4) leaves the
block with alignment 4, which is not at least the earlier requested
alignment 8 — alignment is not monotone over a grow sequence. -/
theorem growSeq_alignment_not_monotone_cex :
    growSeq ⟨0, 1, danglingPtr⟩ [(8, 8), (16, 4)] ⟨1, []⟩ =
      some (⟨16, 4, 2⟩,
        ⟨3, [AllocEvent.alloc 8 8, AllocEvent.dealloc 1 8 8, AllocEvent.alloc 16 4]⟩) ∧
    ((8, 8) ∈ [((8 : Nat), (8 : Nat)), (16, 4)]) ∧ ¬ ((8 : Nat) ≤ (4 : Nat)) := by
  refine ⟨rfl, by decide, by decide⟩

/-- C1 amended: over any sequence of `grow` requests the block's length is
monotone and ends at least every requested length, but the alignment is only
guaranteed to be at least the alignment of the most recent request. -/
theorem growSeq_length_monotone (reqs : List (Nat × Nat)) (g : Growable)
    (s : AllocState) (g' : Growable) (s' : AllocState)
    (h : growSeq g reqs s = some (g', s')) :
    g.len ≤ g'.len ∧ (∀ la ∈ reqs, la.1 ≤ g'.len) ∧
    (∀ la, reqs.getLast? = some la → la.2 ≤ g'.ptr_alignment) := by
  induction reqs generalizing g s with
  | nil =>
    simp only [growSeq, Option.some.injEq, Prod.mk.injEq] at h
    obtain ⟨rfl, -⟩ := h
    simp
  | cons la rest ih =>
    simp only [growSeq] at h
    split at h
    · exact Option.noConfusion h
    · rename_i gs hgrow
      obtain ⟨h1, h2, h3⟩ := Growable.grow_post hgrow
      obtain ⟨ih1, ih2, ih3⟩ := ih gs.1 gs.2 h
      refine ⟨Nat.le_trans h1 ih1, ?_, ?_⟩
      · intro lb hlb
        rcases List.mem_cons.mp hlb with hlb | hlb
        · subst hlb
          exact Nat.le_trans h2 ih1
        · exact ih2 lb hlb
      · intro lb hlb
        match rest, h, ih1, ih3 with
        | [], h, ih1, ih3 =>
          simp only [growSeq, Option.some.injEq, Prod.mk.injEq] at h
          obtain ⟨rfl, -⟩ := h
          simp only [List.getLast?_singleton, Option.some.injEq] at hlb
          subst hlb
          exact h3
        | lc :: rest', h, ih1, ih3 =>
          refine ih3 lb ?_
          rw [List.getLast?_cons_cons] at hlb
          exact hlb

/-- Witness for the amended monotonicity on the concrete counterexample run:
the final length 16 dominates both requested lengths and the final alignment
dominates the last request's alignment. -/
theorem growSeq_length_monotone_witness :
    (⟨0, 1, danglingPtr⟩ : Growable).len ≤ (⟨16, 4, 2⟩ : Growable).len ∧
    (∀ la ∈ [((8 : Nat), (8 : Nat)), (16, 4)], la.1 ≤ (⟨16, 4, 2⟩ : Growable).len) ∧
    (∀ la, [((8 : Nat), (8 : Nat)), (16, 4)].getLast? = some la →
      la.2 ≤ (⟨16, 4, 2⟩ : Growable).ptr_alignment) :=
  growSeq_length_monotone [(8, 8), (16, 4)] ⟨0, 1, danglingPtr⟩ ⟨1, []⟩ ⟨16, 4, 2⟩
    ⟨3, [AllocEvent.alloc 8 8, AllocEvent.dealloc 1 8 8, AllocEvent.alloc 16 4]⟩
    (by decide)

/-- Counterexample to C5 as stated: on the zero-length block with alignment 8,
`grow(0, 1)` satisfies the no-op clause's condition (length 0 is at least the
requested 0 and alignment 8 is at least the requested 1), yet the code takes
the zero-length branch first and replaces the block with
`with_capacity(0, 1)`, changing the recorded alignment from 8 to 1. -/
theorem grow_noop_clause_cex :
    ((0 : Nat) ≤ (⟨0, 8, danglingPtr⟩ : Growable).len ∧
     (1 : Nat) ≤ (⟨0, 8, danglingPtr⟩ : Growable).ptr_alignment) ∧
    Growable.grow ⟨0, 8, danglingPtr⟩ 0 1 ⟨1, []⟩ =
      some (⟨0, 1, danglingPtr⟩, ⟨1, []⟩) ∧
    (⟨0, 1, danglingPtr⟩ : Growable) ≠ (⟨0, 8, danglingPtr⟩ : Growable) :=
  ⟨by decide, by decide, by decide⟩

/-- C5 amended: the grow policy with the clauses in the code's order — the
zero-length case takes priority and becomes `with_capacity`; only a block of
nonzero length that is already long enough and aligned enough is a no-op;
otherwise the new length is the maximum of current and requested, extending
in place exactly when the requested alignment equals the current one and
deallocating plus freshly allocating otherwise. -/
theorem grow_policy_characterised (g : Growable) (l a : Nat) (s : AllocState) :
    (g.len = 0 → g.grow l a s = Growable.with_capacity l a s) ∧
    (g.len ≠ 0 → l ≤ g.len → a ≤ g.ptr_alignment → g.grow l a s = some (g, s)) ∧
    (g.len ≠ 0 → ¬ (l ≤ g.len ∧ a ≤ g.ptr_alignment) → a = g.ptr_alignment →
      g.grow l a s = some (⟨max g.len l, a, g.ptr⟩,
        ⟨s.next, s.events ++
          [AllocEvent.growCall g.ptr g.len g.ptr_alignment (max g.len l) a]⟩)) ∧
    (g.len ≠ 0 → ¬ (l ≤ g.len ∧ a ≤ g.ptr_alignment) → a ≠ g.ptr_alignment →
      g.grow l a s = some (⟨max g.len l, a, s.next⟩,
        ⟨s.next + 1, s.events ++
          [AllocEvent.dealloc g.ptr g.len g.ptr_alignment,
           AllocEvent.alloc (max g.len l) a]⟩)) := by
  refine ⟨?_, ?_, ?_, ?_⟩
  · intro h0
    simp [Growable.grow, h0]
  · intro hne hl ha
    simp [Growable.grow, hne, hl, ha]
  · intro hne hnot heqa
    have hm : ¬ (max g.len l = 0) := by
      simp only [Nat.max_eq_zero_iff]
      exact fun hc => hne hc.1
    have hl : ¬ l ≤ g.len := fun hc => hnot ⟨hc, le_of_eq heqa⟩
    simp [Growable.grow, hne, hl, hm, heqa, growRaw]
  · intro hne hnot hnea
    have hm : ¬ (max g.len l = 0) := by
      simp only [Nat.max_eq_zero_iff]
      exact fun hc => hne hc.1
    simp [Growable.grow, hne, hnot, hm, hnea, deallocRaw, allocRaw]

/-- Witness exercising all four branches of the amended grow policy at
concrete inputs. -/
theorem grow_policy_characterised_witness :
    Growable.grow ⟨0, 8, danglingPtr⟩ 0 1 ⟨1, []⟩ =
      Growable.with_capacity 0 1 ⟨1, []⟩ ∧
    Growable.grow ⟨8, 8, 5⟩ 8 8 ⟨1, []⟩ = some (⟨8, 8, 5⟩, ⟨1, []⟩) ∧
    Growable.grow ⟨8, 8, 5⟩ 16 8 ⟨1, []⟩ =
      some (⟨16, 8, 5⟩, ⟨1, [AllocEvent.growCall 5 8 8 16 8]⟩) ∧
    Growable.grow ⟨8, 8, 5⟩ 16 4 ⟨1, []⟩ =
      some (⟨16, 4, 1⟩, ⟨2, [AllocEvent.dealloc 5 8 8, AllocEvent.alloc 16 4]⟩) :=
  ⟨(grow_policy_characterised ⟨0, 8, danglingPtr⟩ 0 1 ⟨1, []⟩).1 rfl,
   (grow_policy_characterised ⟨8, 8, 5⟩ 8 8 ⟨1, []⟩).2.1 (by decide) (by decide)
     (by decide),
   (grow_policy_characterised ⟨8, 8, 5⟩ 16 8 ⟨1, []⟩).2.2.1 (by decide) (by decide)
     rfl,
   (grow_policy_characterised ⟨8, 8, 5⟩ 16 4 ⟨1, []⟩).2.2.2 (by decide) (by decide)
     (by decide)⟩

/-- Concrete LIFO scenario on a default pool: allocate A, allocate B, free B,
free A, then allocate again; returns the backing addresses of A's handle and
of the final handle. -/
def lifoRun : Option (Nat × Nat) :=
  match GrowablePoolBuilder.mkNew.build ⟨1, []⟩ with
  | none => none
  | some ps =>
    match ps.1.allocate ⟨8, 8⟩ (0 : Nat) ps.2 with
    | none => none
    | some a =>
      match a.2.1.allocate ⟨8, 8⟩ (0 : Nat) a.2.2 with
      | none => none
      | some b =>
        let pb := b.2.1.free b.1 b.2.2
        let pa := pb.1.free a.1 pb.2
        match pa.1.allocate ⟨8, 8⟩ (0 : Nat) pa.2 with
        | none => none
        | some c => some (a.1.ptr, c.1.ptr)

/-- C2: pool LIFO reuse — `free` (when it stores the block) pushes the
recovered block at the front of the idle deque, `allocate` pops the front
block, and in the concrete scenario allocate A, allocate B, free B, free A,
allocate the final handle is backed by A's block (both addresses are 2). -/
theorem pool_lifo_reuse :
    (∀ (α : Type) (p : GrowablePool) (r : Reusable α) (s : AllocState),
      p.overgrow = true ∨ p.vec.length < p.len →
      (p.free r s).1.vec = (⟨r.len, r.ptr_alignment, r.ptr⟩ : Growable) :: p.vec) ∧
    (∀ (α : Type) (p : GrowablePool) (g : Growable) (rest : List Growable)
      (sh : Shape) (t : α) (s : AllocState), p.vec = g :: rest →
      p.allocate sh t s = (g.consume sh t s).map
        (fun rs => (rs.1, { p with vec := rest }, rs.2))) ∧
    lifoRun = some (2, 2) := by
  refine ⟨?_, ?_, rfl⟩
  · intro α p r s hyp
    have hcond : ¬ (p.overgrow = false ∧ p.len ≤ p.vec.length) := by
      rcases hyp with h | h
      · rintro ⟨hc, -⟩
        rw [h] at hc
        exact Bool.noConfusion hc
      · rintro ⟨-, hc⟩
        omega
    simp [GrowablePool.free, hcond, Reusable.free, Reusable.free_in_place]
  · intro α p g rest sh t s hvec
    simp only [GrowablePool.allocate, hvec]
    cases hc : g.consume sh t s with
    | none => simp [hc]
    | some rs => simp [hc]

/-- Witness for the LIFO reuse: a concrete pool with overgrow enabled pushes
the freed block at the front, and a concrete pool with a nonempty deque pops
its front block into the allocation. -/
theorem pool_lifo_reuse_witness :
    ((⟨2, 8, 8, true, [⟨8, 8, 9⟩]⟩ : GrowablePool).free
        (⟨16, 8, 4, (0 : Nat)⟩ : Reusable Nat) ⟨1, []⟩).1.vec =
      (⟨16, 8, 4⟩ : Growable) :: [⟨8, 8, 9⟩] ∧
    (⟨2, 8, 8, true, [⟨8, 8, 9⟩]⟩ : GrowablePool).allocate ⟨8, 8⟩ (0 : Nat) ⟨1, []⟩ =
      ((⟨8, 8, 9⟩ : Growable).consume ⟨8, 8⟩ (0 : Nat) ⟨1, []⟩).map
        (fun rs => (rs.1, (⟨2, 8, 8, true, []⟩ : GrowablePool), rs.2)) :=
  ⟨pool_lifo_reuse.1 Nat ⟨2, 8, 8, true, [⟨8, 8, 9⟩]⟩ ⟨16, 8, 4, 0⟩ ⟨1, []⟩
      (Or.inl rfl),
   pool_lifo_reuse.2.1 Nat ⟨2, 8, 8, true, [⟨8, 8, 9⟩]⟩ ⟨8, 8, 9⟩ [] ⟨8, 8⟩ 0 ⟨1, []⟩
      rfl⟩

/-- Specification of a successful `build`: the pool records the builder's
options and starts with exactly `len` idle blocks. -/
theorem GrowablePoolBuilder.build_some {b : GrowablePoolBuilder} {s : AllocState}
    {p : GrowablePool} {s' : AllocState} (h : b.build s = some (p, s')) :
    p.len = b.len ∧ p.overgrow = b.overgrow ∧ p.idle = b.len := by
  simp only [GrowablePoolBuilder.build] at h
  split at h
  · exact Option.noConfusion h
  · rename_i ds hwc
    split at h
    · exact Option.noConfusion h
    · rename_i vs hfill
      simp only [Option.some.injEq, Prod.mk.injEq] at h
      obtain ⟨hp, -⟩ := h
      subst hp
      obtain ⟨hlen, -⟩ := poolFill_some hfill
      exact ⟨rfl, rfl, hlen⟩

/-- Pools reachable from a `build` with target capacity `N` and overgrow
disabled by any sequence of `allocate` and `free` calls. -/
inductive poolReachable (N : Nat) : GrowablePool → Prop where
  | built (b : GrowablePoolBuilder) (s s' : AllocState) (p : GrowablePool) :
      b.len = N → b.overgrow = false → b.build s = some (p, s') → poolReachable N p
  | stepAllocate (α : Type) (p : GrowablePool) (sh : Shape) (t : α)
      (s s' : AllocState) (r : Reusable α) (p' : GrowablePool) :
      poolReachable N p → p.allocate sh t s = some (r, p', s') → poolReachable N p'
  | stepFree (α : Type) (p : GrowablePool) (r : Reusable α) (s s' : AllocState)
      (p' : GrowablePool) :
      poolReachable N p → p.free r s = (p', s') → poolReachable N p'

/-- Invariant of reachable pools: the configured capacity and overgrow flag
never change, and the idle count never exceeds the capacity target. -/
theorem poolReachable_invariant {N : Nat} {p : GrowablePool}
    (h : poolReachable N p) : p.len = N ∧ p.overgrow = false ∧ p.idle ≤ N := by
  induction h with
  | built b s s' p hlen hov hbuild =>
    obtain ⟨h1, h2, h3⟩ := GrowablePoolBuilder.build_some hbuild
    exact ⟨h1.trans hlen, h2.trans hov, by omega⟩
  | stepAllocate α p sh t s s' r p' hreach halloc ih =>
    obtain ⟨ihl, iho, ihb⟩ := ih
    simp only [GrowablePool.allocate] at halloc
    split at halloc
    · rename_i g rest hvec
      split at halloc
      · exact Option.noConfusion halloc
      · rename_i rs hcons
        simp only [Option.some.injEq, Prod.mk.injEq] at halloc
        obtain ⟨-, hp, -⟩ := halloc
        subst hp
        have : p.idle = rest.length + 1 := by
          simp [GrowablePool.idle, hvec]
        refine ⟨ihl, iho, ?_⟩
        simp only [GrowablePool.idle] at *
        omega
    · rename_i hvec
      split at halloc
      · exact Option.noConfusion halloc
      · rename_i ds hwc
        split at halloc
        · exact Option.noConfusion halloc
        · rename_i vs hfill
          split at halloc
          · exact Option.noConfusion halloc
          · rename_i g rest hv1
            split at halloc
            · exact Option.noConfusion halloc
            · rename_i rs hcons
              simp only [Option.some.injEq, Prod.mk.injEq] at halloc
              obtain ⟨-, hp, -⟩ := halloc
              subst hp
              obtain ⟨hlenv, -⟩ := poolFill_some hfill
              rw [hv1] at hlenv
              simp only [List.length_cons] at hlenv
              refine ⟨ihl, iho, ?_⟩
              simp only [GrowablePool.idle]
              omega
  | stepFree α p r s s' p' hreach hfree ih =>
    obtain ⟨ihl, iho, ihb⟩ := ih
    simp only [GrowablePool.free] at hfree
    split at hfree
    · simp only [Prod.mk.injEq] at hfree
      obtain ⟨hp, -⟩ := hfree
      subst hp
      exact ⟨ihl, iho, ihb⟩
    · rename_i hcond
      simp only [Prod.mk.injEq] at hfree
      obtain ⟨hp, -⟩ := hfree
      subst hp
      refine ⟨ihl, iho, ?_⟩
      have hlt : ¬ p.len ≤ p.vec.length := fun hc => hcond ⟨iho, hc⟩
      simp only [GrowablePool.idle, List.length_cons] at *
      omega

/-- C3: pool capacity invariant — a freshly built pool holds exactly its
configured number of idle blocks, and with overgrow disabled every pool
reachable by any sequence of `allocate`/`free` calls keeps its idle count at
or below the capacity target (freed blocks are discarded once the target is
reached). -/
theorem pool_capacity_invariant :
    (∀ (b : GrowablePoolBuilder) (s : AllocState) (p : GrowablePool)
      (s' : AllocState), b.build s = some (p, s') → p.idle = b.len) ∧
    (∀ (N : Nat) (p : GrowablePool), poolReachable N p → p.idle ≤ N) := by
  constructor
  · intro b s p s' h
    exact (GrowablePoolBuilder.build_some h).2.2
  · intro N p h
    exact (poolReachable_invariant h).2.2

/-- Witness for the capacity invariant: the pool built with capacity 2 and
overgrow disabled holds exactly 2 idle blocks, and as a reachable pool its
idle count is bounded by 2. -/
theorem pool_capacity_invariant_witness :
    (⟨2, 8, 8, false, [⟨8, 8, 2⟩, ⟨8, 8, 1⟩]⟩ : GrowablePool).idle = 2 ∧
    (⟨2, 8, 8, false, [⟨8, 8, 2⟩, ⟨8, 8, 1⟩]⟩ : GrowablePool).idle ≤ 2 :=
  ⟨pool_capacity_invariant.1 ⟨2, 8, 8, false⟩ ⟨1, []⟩
      ⟨2, 8, 8, false, [⟨8, 8, 2⟩, ⟨8, 8, 1⟩]⟩
      ⟨3, [AllocEvent.alloc 8 8, AllocEvent.alloc 8 8]⟩ (by decide),
   pool_capacity_invariant.2 2 ⟨2, 8, 8, false, [⟨8, 8, 2⟩, ⟨8, 8, 1⟩]⟩
      (poolReachable.built ⟨2, 8, 8, false⟩ ⟨1, []⟩
        ⟨3, [AllocEvent.alloc 8 8, AllocEvent.alloc 8 8]⟩
        ⟨2, 8, 8, false, [⟨8, 8, 2⟩, ⟨8, 8, 1⟩]⟩ rfl rfl (by decide))⟩

/-- Test for an event that is a call into the system allocator (everything
except a destructor run). -/
def isAllocatorEvent : AllocEvent → Bool
  | AllocEvent.dropValue => false
  | _ => true

/-- Number of system-allocator calls recorded in the trace. -/
def allocCallCount (s : AllocState) : Nat := s.events.countP isAllocatorEvent

/-- Repeated consume/free rounds on one block: each round consumes a value of
layout `sh` into the block and immediately frees the handle, feeding the
recovered block to the next round. -/
def zstCycle {α : Type} (sh : Shape) (t : α) :
    Nat → Growable → AllocState → Option (Growable × AllocState)
  | 0, g, s => some (g, s)
  | n + 1, g, s =>
    match g.consume sh t s with
    | none => none
    | some rs =>
      let gs := Reusable.free rs.1 rs.2
      zstCycle sh t n gs.1 gs.2

/-- Auxiliary for C8: starting from any zero-length block, consume/free
rounds with a zero-sized layout succeed, never touch the allocator, and keep
the block at length 0. -/
theorem zstCycle_zero_len {α : Type} (sh : Shape) (t : α) (hsz : sh.size = 0)
    (hal : isPow2 sh.align = true) (n : Nat) (g : Growable) (s : AllocState)
    (hlen : g.len = 0) :
    ∃ g' s', zstCycle sh t n g s = some (g', s') ∧ g'.len = 0 ∧
      allocCallCount s' = allocCallCount s := by
  induction n generalizing g s with
  | zero => exact ⟨g, s, rfl, hlen, rfl⟩
  | succ n ih =>
    have hcons : g.consume sh t s = some (⟨0, sh.align, danglingPtr, t⟩, s) := by
      simp [Growable.consume, Growable.grow, hlen, hsz, Growable.with_capacity,
        hal, Growable.copy]
    obtain ⟨g', s', heq, hl, hc⟩ := ih (⟨0, sh.align, danglingPtr⟩ : Growable)
      (emitDrop s) rfl
    refine ⟨g', s', ?_, hl, ?_⟩
    · simp only [zstCycle, hcons]
      exact heq
    · rw [hc]
      simp [allocCallCount, emitDrop, List.countP_append, isAllocatorEvent,
        List.countP_cons]

/-- C8: zero-size handling — `with_capacity(0, 1)` performs no allocation
(the trace and the fresh-address counter are untouched), and any number of
consume/free rounds with a zero-sized layout on the resulting block never
calls the system allocator and always leaves the recovered block reporting
length 0. -/
theorem zst_never_allocates (α : Type) (t : α) (sh : Shape) (s : AllocState)
    (n : Nat) (hsz : sh.size = 0) (hal : isPow2 sh.align = true) :
    Growable.with_capacity 0 1 s = some (⟨0, 1, danglingPtr⟩, s) ∧
    ∃ g' s', zstCycle sh t n ⟨0, 1, danglingPtr⟩ s = some (g', s') ∧
      g'.length = 0 ∧ allocCallCount s' = allocCallCount s := by
  refine ⟨rfl, ?_⟩
  obtain ⟨g', s', heq, hl, hc⟩ :=
    zstCycle_zero_len sh t hsz hal n ⟨0, 1, danglingPtr⟩ s rfl
  exact ⟨g', s', heq, hl, hc⟩

/-- Witness for zero-size handling: three consume/free rounds with a
zero-sized, 8-aligned layout starting from the empty block. -/
theorem zst_never_allocates_witness :
    Growable.with_capacity 0 1 ⟨1, []⟩ = some (⟨0, 1, danglingPtr⟩, ⟨1, []⟩) ∧
    ∃ g' s', zstCycle ⟨0, 8⟩ () 3 ⟨0, 1, danglingPtr⟩ ⟨1, []⟩ = some (g', s') ∧
      g'.length = 0 ∧ allocCallCount s' = allocCallCount ⟨1, []⟩ :=
  zst_never_allocates Unit () ⟨0, 8⟩ ⟨1, []⟩ 3 rfl (by decide)
